/-
Verification of the `shared_memory` crate's core (`src/lib.rs`): the `MemFile`
facade that couples an on-disk link file (holding the OS-opaque shared-memory
identifier as UTF-8 bytes) with a platform backend that creates or attaches to
the named shared object.

The embedding models:
  * the filesystem the link files live in, as an association list from paths
    to byte contents;
  * the platform backend's live named objects, as an association list from
    identifiers to (size, lock kind) — the backend's OS-call bodies are not
    part of the core sources, so its behavior is modelled from the spec;
  * the external effects (link-file creation failure, backend outcome, the
    number of bytes a write call actually wrote, removal success during drop)
    as explicit oracle parameters, so theorems can quantify over them;
  * Rust drop semantics of `MemFile` explicitly: every early-return path of
    `create` drops the locally owned `MemFile`, which runs `impl Drop for
    MemFile` (removing the link file and releasing the mapping).
-/
import Mathlib

namespace SharedMemory

/-! ## UTF-8 byte codec

`MemFile::create` persists `real_path.as_bytes()` (the UTF-8 encoding of the
identifier) and `MemFile::open` recovers it with `String::from_utf8`.  We model
bytes as `List Nat` and give a UTF-8 encoder and a validating decoder. -/

/-- Bytes on disk (each entry is a byte value, `< 256` for bytes actually
produced by the encoder; the decoder rejects anything out of range). -/
abbrev Bytes := List Nat

/-- A UTF-8 continuation byte. -/
def IsCont (b : Nat) : Prop := 0x80 ≤ b ∧ b < 0xC0

instance (b : Nat) : Decidable (IsCont b) := by unfold IsCont; infer_instance

/-- UTF-8 encoding of one Unicode scalar value. -/
def encodeChar (n : Nat) : Bytes :=
  if n < 0x80 then [n]
  else if n < 0x800 then [0xC0 + n / 0x40, 0x80 + n % 0x40]
  else if n < 0x10000 then
    [0xE0 + n / 0x1000, 0x80 + (n / 0x40) % 0x40, 0x80 + n % 0x40]
  else
    [0xF0 + n / 0x40000, 0x80 + (n / 0x1000) % 0x40, 0x80 + (n / 0x40) % 0x40,
     0x80 + n % 0x40]

/-- UTF-8 encoding of a string, as `str::as_bytes` exposes it. -/
def encodeString (s : String) : Bytes :=
  (s.data.map (fun c => encodeChar c.toNat)).flatten

/-- Decode one Unicode scalar value from the front of a byte sequence,
returning the value and the remaining bytes.  Rejects stray or missing
continuation bytes, overlong forms, surrogates and values above `0x10FFFF` —
exactly the prefixes `String::from_utf8` accepts. -/
def decodeOne : Bytes → Option (Nat × Bytes)
  | [] => none
  | b0 :: bs =>
    if b0 < 0x80 then some (b0, bs)
    else if b0 < 0xC0 then none
    else if b0 < 0xE0 then
      match bs with
      | b1 :: bs1 =>
        let n := (b0 - 0xC0) * 0x40 + (b1 - 0x80)
        if IsCont b1 ∧ 0x80 ≤ n then some (n, bs1) else none
      | [] => none
    else if b0 < 0xF0 then
      match bs with
      | b1 :: b2 :: bs2 =>
        let n := (b0 - 0xE0) * 0x1000 + (b1 - 0x80) * 0x40 + (b2 - 0x80)
        if (IsCont b1 ∧ IsCont b2) ∧ (0x800 ≤ n ∧ (n < 0xD800 ∨ 0xE000 ≤ n)) then
          some (n, bs2)
        else none
      | _ => none
    else if b0 < 0xF8 then
      match bs with
      | b1 :: b2 :: b3 :: bs3 =>
        let n := (b0 - 0xF0) * 0x40000 + (b1 - 0x80) * 0x1000 +
                 (b2 - 0x80) * 0x40 + (b3 - 0x80)
        if (IsCont b1 ∧ IsCont b2 ∧ IsCont b3) ∧ (0x10000 ≤ n ∧ n < 0x110000) then
          some (n, bs3)
        else none
      | _ => none
    else none

theorem decodeOne_rest_length (bs : Bytes) (n : Nat) (rest : Bytes)
    (h : decodeOne bs = some (n, rest)) : rest.length < bs.length := by
  match bs with
  | [] => simp [decodeOne] at h
  | b0 :: bs' =>
    simp only [decodeOne] at h
    repeat' split at h
    all_goals simp only [Option.some.injEq, Prod.mk.injEq, reduceCtorEq] at h
    all_goals obtain ⟨h1, h2⟩ := h
    all_goals subst h2
    all_goals simp only [List.length_cons]
    all_goals omega

/-- Iterate `decodeOne` under a fuel bound (structural recursion, so that the
decoder evaluates inside the kernel); `decodeUtf8` below supplies enough fuel
for the bound never to bite. -/
def decodeLoop : Nat → Bytes → Option (List Nat)
  | _, [] => some []
  | 0, _ :: _ => Option.none
  | fuel + 1, b0 :: bs =>
    match decodeOne (b0 :: bs) with
    | Option.none => Option.none
    | some (n, rest) => (decodeLoop fuel rest).map (n :: ·)

/-- Validating UTF-8 decoder to the list of Unicode scalar values. -/
def decodeUtf8 (bs : Bytes) : Option (List Nat) :=
  decodeLoop bs.length bs

theorem decodeLoop_fuel_irrel (f : Nat) :
    ∀ (g : Nat) (bs : Bytes), bs.length ≤ f → bs.length ≤ g →
      decodeLoop f bs = decodeLoop g bs := by
  induction f with
  | zero =>
    intro g bs hf _
    have hnil : bs = [] := List.eq_nil_of_length_eq_zero (Nat.le_zero.mp hf)
    subst hnil
    cases g <;> rfl
  | succ f ih =>
    intro g bs hf hg
    match bs with
    | [] => cases g <;> rfl
    | b0 :: bs' =>
      simp only [List.length_cons] at hf hg
      match g with
      | 0 => omega
      | g' + 1 =>
        simp only [decodeLoop]
        cases hd : decodeOne (b0 :: bs') with
        | none => rfl
        | some nr =>
          obtain ⟨n, rest⟩ := nr
          have hlt := decodeOne_rest_length _ _ _ hd
          simp only [List.length_cons] at hlt
          show Option.map (fun x => n :: x) (decodeLoop f rest) =
            Option.map (fun x => n :: x) (decodeLoop g' rest)
          rw [ih g' rest (by omega) (by omega)]

theorem decodeLoop_eq_of_le (fuel : Nat) (bs : Bytes) (h : bs.length ≤ fuel) :
    decodeLoop fuel bs = decodeLoop bs.length bs :=
  decodeLoop_fuel_irrel fuel bs.length bs h Nat.le.refl

theorem decodeUtf8_nil : decodeUtf8 [] = some [] := rfl

theorem decodeUtf8_step (bs : Bytes) (n : Nat) (rest : Bytes)
    (hd : decodeOne bs = some (n, rest)) :
    decodeUtf8 bs = (decodeUtf8 rest).map (n :: ·) := by
  match bs with
  | [] => simp [decodeOne] at hd
  | b0 :: bs' =>
    unfold decodeUtf8
    simp only [List.length_cons, decodeLoop, hd]
    have hlt := decodeOne_rest_length _ _ _ hd
    simp only [List.length_cons] at hlt
    rw [decodeLoop_eq_of_le bs'.length rest (by omega)]

/-- `String::from_utf8`: decode bytes to a string, `none` on invalid UTF-8. -/
def stringFromUtf8 (bs : Bytes) : Option String :=
  (decodeUtf8 bs).map (fun ns => ⟨ns.map Char.ofNat⟩)

set_option maxRecDepth 8192 in
theorem decodeOne_encodeChar (n : Nat)
    (hv : n < 0xD800 ∨ (0xE000 ≤ n ∧ n < 0x110000)) (bs : Bytes) :
    decodeOne (encodeChar n ++ bs) = some (n, bs) := by
  rcases Nat.lt_or_ge n 0x80 with h1 | h1
  · simp only [encodeChar, if_pos h1, List.cons_append, List.nil_append,
      decodeOne, if_pos h1]
  · rcases Nat.lt_or_ge n 0x800 with h2 | h2
    · simp only [encodeChar, if_neg (by omega : ¬ n < 0x80), if_pos h2,
        List.cons_append, List.nil_append, decodeOne,
        if_neg (by omega : ¬ 0xC0 + n / 0x40 < 0x80),
        if_neg (by omega : ¬ 0xC0 + n / 0x40 < 0xC0),
        if_pos (by omega : 0xC0 + n / 0x40 < 0xE0)]
      rw [if_pos]
      · simp only [Option.some.injEq, Prod.mk.injEq]
        exact ⟨by omega, trivial⟩
      · constructor
        · constructor <;> omega
        · omega
    · rcases Nat.lt_or_ge n 0x10000 with h3 | h3
      · simp only [encodeChar, if_neg (by omega : ¬ n < 0x80),
          if_neg (by omega : ¬ n < 0x800), if_pos h3, List.cons_append,
          List.nil_append, decodeOne,
          if_neg (by omega : ¬ 0xE0 + n / 0x1000 < 0x80),
          if_neg (by omega : ¬ 0xE0 + n / 0x1000 < 0xC0),
          if_neg (by omega : ¬ 0xE0 + n / 0x1000 < 0xE0),
          if_pos (by omega : 0xE0 + n / 0x1000 < 0xF0)]
        rw [if_pos]
        · simp only [Option.some.injEq, Prod.mk.injEq]
          exact ⟨by omega, trivial⟩
        · refine ⟨⟨⟨?_, ?_⟩, ?_, ?_⟩, ?_, ?_⟩ <;> omega
      · simp only [encodeChar, if_neg (by omega : ¬ n < 0x80),
          if_neg (by omega : ¬ n < 0x800), if_neg (by omega : ¬ n < 0x10000),
          List.cons_append, List.nil_append, decodeOne,
          if_neg (by omega : ¬ 0xF0 + n / 0x40000 < 0x80),
          if_neg (by omega : ¬ 0xF0 + n / 0x40000 < 0xC0),
          if_neg (by omega : ¬ 0xF0 + n / 0x40000 < 0xE0),
          if_neg (by omega : ¬ 0xF0 + n / 0x40000 < 0xF0),
          if_pos (by omega : 0xF0 + n / 0x40000 < 0xF8)]
        rw [if_pos]
        · simp only [Option.some.injEq, Prod.mk.injEq]
          exact ⟨by omega, trivial⟩
        · refine ⟨⟨⟨?_, ?_⟩, ⟨?_, ?_⟩, ?_, ?_⟩, ?_, ?_⟩ <;> omega

theorem decodeUtf8_encode_scalars (ns : List Nat)
    (hv : ∀ n ∈ ns, n < 0xD800 ∨ (0xE000 ≤ n ∧ n < 0x110000)) :
    decodeUtf8 ((ns.map encodeChar).flatten) = some ns := by
  induction ns with
  | nil => simpa using decodeUtf8_nil
  | cons n ns ih =>
    have hn := hv n (by simp)
    have hrest : decodeUtf8 ((ns.map encodeChar).flatten) = some ns :=
      ih (fun m hm => hv m (by simp [hm]))
    rw [List.map_cons, List.flatten_cons,
      decodeUtf8_step _ n ((ns.map encodeChar).flatten) (decodeOne_encodeChar n hn _),
      hrest]
    rfl

theorem char_scalar_valid (c : Char) :
    c.toNat < 0xD800 ∨ (0xE000 ≤ c.toNat ∧ c.toNat < 0x110000) := by
  have h := c.valid
  unfold UInt32.isValidChar Nat.isValidChar at h
  rcases h with h | ⟨h1, h2⟩
  · left
    exact h
  · right
    exact ⟨h1, h2⟩

/-- Round trip: decoding the UTF-8 encoding of a string gives it back, for
every string (`String::from_utf8(s.as_bytes().to_vec()) == Ok(s)`). -/
theorem stringFromUtf8_encodeString (s : String) :
    stringFromUtf8 (encodeString s) = some s := by
  unfold stringFromUtf8 encodeString
  have h1 : s.data.map (fun c => encodeChar c.toNat) =
      (s.data.map Char.toNat).map encodeChar := by
    rw [List.map_map]
    rfl
  rw [h1, decodeUtf8_encode_scalars]
  · simp only [Option.map_some', List.map_map]
    congr 1
    conv_rhs => rw [show s = ⟨s.data⟩ from rfl]
    congr 1
    simp [Function.comp_def, Char.ofNat_toNat]
  · intro n hn
    rw [List.mem_map] at hn
    obtain ⟨c, _, rfl⟩ := hn
    exact char_scalar_valid c

/-! ## Data model

The `MemFile` handle of `lib.rs`, the filesystem holding the link files, and
the platform backend's live objects. -/

/-- Modelled from the spec: the lock kinds of `locking.rs` (a module of this
crate not among the provided sources): `{None, Mutex, ReaderWriter}`, chosen
once at creation. -/
inductive LockType
  | none
  | mutex
  | rwlock
deriving DecidableEq, Repr

/-- Modelled from the spec: the backend's per-handle mapping state
(`os_impl::MemMetadata`, whose OS-specific body is not among the provided
sources).  For artifact accounting it records the identifier of the attached
object and whether this handle owns it; dropping it performs the spec's
`unmap_and_release` (destroying the named object when owner). -/
structure MemMetadata where
  ident : String
  owner : Bool
deriving DecidableEq, Repr

/-- Embeds `struct MemFile` (lib.rs:68-79), field for field. -/
structure MemFile where
  meta : Option MemMetadata
  owner : Bool
  link_path : Option String
  real_path : Option String
  size : Nat
deriving DecidableEq, Repr

/-- The error values `lib.rs` produces (`Box<std::error::Error>` in the
source).  Constructors record each value's provenance: a string literal passed
to `From::from`, a propagated `std::io::Error`, a propagated `FromUtf8Error`,
or an error reported by the platform backend. -/
inductive MemFileError
  | strError (msg : String)
  | ioError (msg : String)
  | utf8Error
  | backendError (msg : String)
deriving DecidableEq, Repr

/-- The filesystem the link files live in: association list from paths to the
contents of regular files. -/
abbrev Fs := List (String × Bytes)

def Fs.lookup : Fs → String → Option Bytes
  | [], _ => Option.none
  | (q, b) :: rest, p => if q = p then some b else Fs.lookup rest p

/-- `Path::is_file`. -/
def Fs.isFile (fs : Fs) (p : String) : Bool :=
  (Fs.lookup fs p).isSome

/-- `std::fs::remove_file`: drop every entry at path `p`. -/
def Fs.removeFile (fs : Fs) (p : String) : Fs :=
  fs.filter (fun e => decide (e.1 ≠ p))

/-- `File::create` followed by writing `b`: the path now holds exactly `b`. -/
def Fs.setFile (fs : Fs) (p : String) (b : Bytes) : Fs :=
  (p, b) :: Fs.removeFile fs p

/-- The platform backend's live named shared-memory objects: identifier ↦
(data size, lock kind).  Modelled from the spec (§6, Platform Backend
contract); the OS-call bodies (`win`/`nix`/`macos` modules) are not among the
provided sources. -/
abbrev Objects := List (String × Nat × LockType)

def Objects.lookup : Objects → String → Option (Nat × LockType)
  | [], _ => Option.none
  | (q, v) :: rest, id => if q = id then some v else Objects.lookup rest id

/-- Whether a named object with this identifier is currently live. -/
def Objects.live (os : Objects) (id : String) : Bool :=
  (Objects.lookup os id).isSome

/-- Destroy the named object with this identifier. -/
def Objects.removeObj (os : Objects) (id : String) : Objects :=
  os.filter (fun e => decide (e.1 ≠ id))

/-- The whole observable state: link files on disk plus live backend objects. -/
structure World where
  fs : Fs
  objects : Objects
deriving DecidableEq, Repr

/-- Modelled from the spec: the outcome the platform backend chooses for one
`os_impl::create` call.  `ok ident` is a conforming success, `ident` being the
identifier the backend picks when the handle does not already carry an
authoritative one; `okNoIdent` is the internal-contract violation in which the
backend reports success without populating `real_path`; `err` is an opaque
backend failure. -/
inductive BackendCreateOutcome
  | ok (ident : String)
  | okNoIdent
  | err (msg : String)
deriving DecidableEq, Repr

/-- Modelled from the spec: `os_impl::create` (§6,
`create(identifier_hint, lock_kind, data_size)`) — reserves a named shared
object of the handle's size with the given lock kind, registers it under the
resolved identifier, maps it, and returns the handle with `real_path` and
`meta` populated.  An identifier already carried by the handle (raw mode) is
authoritative; otherwise the backend-picked one is used. -/
def osImplCreate (objs : Objects) (mf : MemFile) (lock : LockType)
    (out : BackendCreateOutcome) : Except MemFileError MemFile × Objects :=
  match out with
  | .err m => (.error (.backendError m), objs)
  | .okNoIdent => (.ok mf, objs)
  | .ok ident =>
    let rid := mf.real_path.getD ident
    (.ok { mf with real_path := some rid, meta := some ⟨rid, mf.owner⟩ },
     (rid, mf.size, lock) :: objs)

/-- Modelled from the spec: `os_impl::open` (§6, `open(identifier)`) —
attaches to an existing object by exact identifier, filling in the size the
creator registered, without modifying the backend state. -/
def osImplOpen (objs : Objects) (mf : MemFile) : Except MemFileError MemFile :=
  match mf.real_path with
  | Option.none => .error (.backendError "no identifier")
  | some id =>
    match Objects.lookup objs id with
    | Option.none => .error (.backendError "mapping not found")
    | some (sz, _) => .ok { mf with size := sz, meta := some ⟨id, mf.owner⟩ }

/-- Embeds `impl Drop for MemFile` (lib.rs:237-253): if this handle is the
owner and carries a link path that still names a regular file, delete that
file best-effort (`removeOk` says whether the OS delete succeeds; the result
is discarded either way, `match remove_file(file_path) {_=>{},}`); then drop
the backend metadata, which releases the mapping and, for the owner, the
named object. -/
def MemFile.drop (w : World) (mf : MemFile) (removeOk : Bool) : World :=
  let fs1 :=
    if mf.owner then
      match mf.link_path with
      | some p =>
        if Fs.isFile w.fs p ∧ removeOk then Fs.removeFile w.fs p else w.fs
      | Option.none => w.fs
    else w.fs
  let objs1 :=
    match mf.meta with
    | some m => if m.owner then Objects.removeObj w.objects m.ident else w.objects
    | Option.none => w.objects
  ⟨fs1, objs1⟩

/-- What `Write::write` of the identifier bytes returns: `Ok(n)` with `n`
bytes actually written, or an I/O error. -/
inductive WriteOutcome
  | wrote (n : Nat)
  | ioErr (msg : String)
deriving DecidableEq, Repr

/-- The environment's responses to the external effects one `MemFile::create`
call performs, in order: whether `File::create` of the link file fails,
the backend's outcome, what `Write::write` of the identifier bytes returns,
and whether the `remove_file` of any implicit drop on the error paths
succeeds. -/
structure CreateEnv where
  fsCreateErr : Option String
  backend : BackendCreateOutcome
  write : WriteOutcome
  dropRemoveOk : Bool
deriving DecidableEq, Repr

/-- Result of `MemFile::create`: a normal `Result`, or the `panic!` the source
reserves for the backend contract violation. -/
inductive CreateResult
  | ok (mf : MemFile)
  | err (e : MemFileError)
  | panicked (msg : String)
deriving DecidableEq, Repr

def CreateResult.isPanicked : CreateResult → Bool
  | .panicked _ => true
  | _ => false

/-! ## The four constructors and their embedding -/

/-- Embeds `MemFile::create` (lib.rs:104-136), threading the world state and
making Rust drop semantics explicit: on each early error return after the
link file was created, the locally owned `MemFile` (moved into and, on
success, back out of `os_impl::create`) is dropped, running
`impl Drop for MemFile`. -/
def MemFile.create (w : World) (new_link_path : String) (lock_type : LockType)
    (size : Nat) (env : CreateEnv) : CreateResult × World :=
  if Fs.isFile w.fs new_link_path then
    (.err (.strError "Cannot create MemFile because file already exists"), w)
  else
    match env.fsCreateErr with
    | some m => (.err (.ioError m), w)
    | Option.none =>
      let fs1 := Fs.setFile w.fs new_link_path []
      let mem_file : MemFile :=
        { meta := Option.none, owner := true, link_path := some new_link_path,
          real_path := Option.none, size := size }
      match osImplCreate w.objects mem_file lock_type env.backend with
      | (.error e, objs1) =>
        (.err e, MemFile.drop ⟨fs1, objs1⟩ mem_file env.dropRemoveOk)
      | (.ok created_file, objs1) =>
        match created_file.real_path with
        | some rp =>
          let bytes := encodeString rp
          match env.write with
          | .wrote n =>
            let fs2 := Fs.setFile fs1 new_link_path (bytes.take n)
            if n ≠ bytes.length then
              (.err (.strError "Failed to write full contents info on disk"),
               MemFile.drop ⟨fs2, objs1⟩ created_file env.dropRemoveOk)
            else
              (.ok created_file, ⟨fs2, objs1⟩)
          | .ioErr _ =>
            (.err (.strError "Failed to write info on disk"),
             MemFile.drop ⟨fs1, objs1⟩ created_file env.dropRemoveOk)
        | Option.none =>
          (.panicked "os_impl::create() returned succesfully but didnt update MemFile::real_path() !",
           MemFile.drop ⟨fs1, objs1⟩ created_file env.dropRemoveOk)

/-- Embeds `MemFile::open` (lib.rs:155-180); named `openLink` because `open`
is a Lean keyword.  `readErr` is the environment's response to the
`File::open`/`read_to_end` calls on the link file: `some msg` makes them fail
with an I/O error. -/
def MemFile.openLink (w : World) (existing_link_path : String)
    (readErr : Option String) : Except MemFileError MemFile :=
  if !(Fs.isFile w.fs existing_link_path) then
    .error (.strError "Cannot open MemFile because file doesnt exists")
  else
    let mem_file : MemFile :=
      { meta := Option.none, owner := false,
        link_path := some existing_link_path, real_path := Option.none,
        size := 0 }
    match readErr with
    | some m => .error (.ioError m)
    | Option.none =>
      let file_contents := (Fs.lookup w.fs existing_link_path).getD []
      match stringFromUtf8 file_contents with
      | Option.none => .error .utf8Error
      | some s => osImplOpen w.objects { mem_file with real_path := some s }

/-- Embeds `MemFile::create_raw` (lib.rs:188-198): no filesystem access at
all (the filesystem is returned untouched by construction, mirroring the
absence of any filesystem call in the source); the backend is invoked with
`LockType::None` and the caller-supplied identifier is authoritative. -/
def MemFile.create_raw (w : World) (shmem_path : String) (size : Nat)
    (out : BackendCreateOutcome) : Except MemFileError MemFile × World :=
  let mem_file : MemFile :=
    { meta := Option.none, owner := true, link_path := Option.none,
      real_path := some shmem_path, size := size }
  let r := osImplCreate w.objects mem_file LockType.none out
  (r.1, { fs := w.fs, objects := r.2 })

/-- Embeds `MemFile::open_raw` (lib.rs:205-217). -/
def MemFile.open_raw (w : World) (shmem_path : String) :
    Except MemFileError MemFile :=
  osImplOpen w.objects
    { meta := Option.none, owner := false, link_path := Option.none,
      real_path := some shmem_path, size := 0 }

/-! ## Filesystem and backend-state lemmas -/

theorem Fs.lookup_removeFile_self (fs : Fs) (p : String) :
    Fs.lookup (Fs.removeFile fs p) p = Option.none := by
  induction fs with
  | nil => rfl
  | cons e rest ih =>
    obtain ⟨q, b⟩ := e
    by_cases h : q = p
    · show Fs.lookup (Fs.removeFile ((q, b) :: rest) p) p = Option.none
      simp only [Fs.removeFile, List.filter_cons]
      rw [if_neg (by simp [h])]
      exact ih
    · show Fs.lookup (Fs.removeFile ((q, b) :: rest) p) p = Option.none
      simp only [Fs.removeFile, List.filter_cons]
      rw [if_pos (by simp [h])]
      show Fs.lookup ((q, b) :: Fs.removeFile rest p) p = Option.none
      simp only [Fs.lookup, if_neg h]
      exact ih

theorem Fs.removeFile_of_isFile_false (fs : Fs) (p : String)
    (h : Fs.isFile fs p = false) : Fs.removeFile fs p = fs := by
  induction fs with
  | nil => rfl
  | cons e rest ih =>
    obtain ⟨q, b⟩ := e
    simp only [Fs.isFile, Fs.lookup] at h
    by_cases hq : q = p
    · simp [hq] at h
    · simp only [if_neg hq] at h
      show Fs.removeFile ((q, b) :: rest) p = (q, b) :: rest
      simp only [Fs.removeFile, List.filter_cons]
      rw [if_pos (by simp [hq])]
      exact congrArg (List.cons (q, b)) (ih h)

theorem Fs.lookup_setFile_self (fs : Fs) (p : String) (b : Bytes) :
    Fs.lookup (Fs.setFile fs p b) p = some b := by
  simp [Fs.setFile, Fs.lookup]

theorem Fs.isFile_setFile_self (fs : Fs) (p : String) (b : Bytes) :
    Fs.isFile (Fs.setFile fs p b) p = true := by
  simp [Fs.isFile, Fs.lookup_setFile_self]

theorem Fs.removeFile_removeFile (fs : Fs) (p : String) :
    Fs.removeFile (Fs.removeFile fs p) p = Fs.removeFile fs p := by
  induction fs with
  | nil => rfl
  | cons e rest ih =>
    obtain ⟨q, b⟩ := e
    by_cases h : q = p
    · show Fs.removeFile (Fs.removeFile ((q, b) :: rest) p) p =
        Fs.removeFile ((q, b) :: rest) p
      simp only [Fs.removeFile, List.filter_cons]
      rw [if_neg (by simp [h])]
      exact ih
    · show Fs.removeFile (Fs.removeFile ((q, b) :: rest) p) p =
        Fs.removeFile ((q, b) :: rest) p
      simp only [Fs.removeFile, List.filter_cons]
      rw [if_pos (by simp [h]), List.filter_cons, if_pos (by simp [h])]
      exact congrArg (List.cons (q, b)) ih

theorem Fs.removeFile_setFile (fs : Fs) (p : String) (b : Bytes) :
    Fs.removeFile (Fs.setFile fs p b) p = Fs.removeFile fs p := by
  show Fs.removeFile ((p, b) :: Fs.removeFile fs p) p = Fs.removeFile fs p
  simp only [Fs.removeFile, List.filter_cons]
  rw [if_neg (by simp)]
  exact Fs.removeFile_removeFile fs p

theorem Objects.lookup_cons_self (os : Objects) (id : String) (v : Nat × LockType) :
    Objects.lookup ((id, v) :: os) id = some v := by
  simp [Objects.lookup]

theorem Objects.removeObj_cons_self (os : Objects) (id : String) (v : Nat × LockType) :
    Objects.removeObj ((id, v) :: os) id = Objects.removeObj os id := by
  simp [Objects.removeObj, List.filter_cons]

theorem Objects.removeObj_of_live_false (os : Objects) (id : String)
    (h : Objects.live os id = false) : Objects.removeObj os id = os := by
  induction os with
  | nil => rfl
  | cons e rest ih =>
    obtain ⟨q, v⟩ := e
    simp only [Objects.live, Objects.lookup] at h
    by_cases hq : q = id
    · simp [hq] at h
    · simp only [if_neg hq] at h
      show Objects.removeObj ((q, v) :: rest) id = (q, v) :: rest
      simp only [Objects.removeObj, List.filter_cons]
      rw [if_pos (by simp [hq])]
      exact congrArg (List.cons (q, v)) (ih h)

/-! ## Helper equations for the constructors under specific environments -/

/-- `MemFile::create` on a fresh path with a conforming backend and a full
write: the handle and final world, in closed form. -/
theorem create_ok_eq (w : World) (p : String) (k : LockType) (s : Nat)
    (ident : String) (rOk : Bool) (hfresh : Fs.isFile w.fs p = false) :
    MemFile.create w p k s
        ⟨Option.none, .ok ident, .wrote (encodeString ident).length, rOk⟩ =
      (.ok ⟨some ⟨ident, true⟩, true, some p, some ident, s⟩,
       ⟨Fs.setFile (Fs.setFile w.fs p []) p (encodeString ident),
        (ident, s, k) :: w.objects⟩) := by
  unfold MemFile.create osImplCreate
  simp [hfresh, List.take_length]

instance {ε α : Type} [DecidableEq ε] [DecidableEq α] : DecidableEq (Except ε α) := fun x y =>
  match x, y with
  | .ok a, .ok b =>
    if h : a = b then isTrue (congrArg Except.ok h)
    else isFalse (fun hh => h (Except.ok.inj hh))
  | .error a, .error b =>
    if h : a = b then isTrue (congrArg Except.error h)
    else isFalse (fun hh => h (Except.error.inj hh))
  | .ok _, .error _ => isFalse (fun hh => Except.noConfusion hh)
  | .error _, .ok _ => isFalse (fun hh => Except.noConfusion hh)

/-- `os_impl::open` never reports a UTF-8 decode failure: its errors are
backend errors. -/
theorem osImplOpen_ne_utf8Error (objs : Objects) (mf : MemFile) :
    osImplOpen objs mf ≠ .error .utf8Error := by
  unfold osImplOpen
  cases hr : mf.real_path with
  | none => simp
  | some id =>
    cases hl : Objects.lookup objs id with
    | none => simp [hl]
    | some v =>
      obtain ⟨sz, lk⟩ := v
      simp [hl]

/-- Every successful `MemFile::create` returns the handle in one fixed shape:
owner, the link path it was given, and a populated identifier. -/
theorem create_ok_shape (w : World) (p : String) (k : LockType) (s : Nat)
    (env : CreateEnv) (mf : MemFile) (w' : World)
    (h : MemFile.create w p k s env = (.ok mf, w')) :
    ∃ ident, mf = ⟨some ⟨ident, true⟩, true, some p, some ident, s⟩ := by
  obtain ⟨fse, be, wo, rOk⟩ := env
  by_cases hf : Fs.isFile w.fs p
  · unfold MemFile.create at h
    simp [hf] at h
  · cases fse with
    | some m =>
      unfold MemFile.create at h
      simp [hf] at h
    | none =>
      cases be with
      | err m =>
        unfold MemFile.create osImplCreate at h
        simp [hf] at h
      | okNoIdent =>
        unfold MemFile.create osImplCreate at h
        simp [hf] at h
      | ok ident =>
        cases wo with
        | ioErr m =>
          unfold MemFile.create osImplCreate at h
          simp [hf] at h
        | wrote n =>
          unfold MemFile.create osImplCreate at h
          by_cases hn : n = (encodeString ident).length
          · simp [hf, hn] at h
            exact ⟨ident, h.1.symm⟩
          · simp [hf, hn] at h

/-- Every successful `MemFile::open` returns a non-owner handle carrying the
link path it was given and the identifier decoded from the link file. -/
theorem openLink_ok_shape (w : World) (p : String) (readErr : Option String)
    (mf : MemFile) (h : MemFile.openLink w p readErr = .ok mf) :
    ∃ ident sz, mf = ⟨some ⟨ident, false⟩, false, some p, some ident, sz⟩ := by
  unfold MemFile.openLink osImplOpen at h
  by_cases hf : Fs.isFile w.fs p
  · simp only [hf, Bool.not_true, Bool.false_eq_true, if_false] at h
    cases readErr with
    | some m => simp at h
    | none =>
      cases hs : stringFromUtf8 ((Fs.lookup w.fs p).getD []) with
      | none => simp [hs] at h
      | some idStr =>
        simp only [hs] at h
        cases hl : Objects.lookup w.objects idStr with
        | none => simp [hl] at h
        | some v =>
          obtain ⟨sz, lk⟩ := v
          simp only [hl, Except.ok.injEq] at h
          exact ⟨idStr, sz, h.symm⟩
  · simp [hf] at h

/-- Every successful `MemFile::create_raw` returns an owner handle with no
link path and the caller-supplied identifier. -/
theorem create_raw_ok_shape (w : World) (sp : String) (s : Nat)
    (out : BackendCreateOutcome) (mf : MemFile) (w' : World)
    (h : MemFile.create_raw w sp s out = (.ok mf, w')) :
    mf = ⟨some ⟨sp, true⟩, true, Option.none, some sp, s⟩ ∨
      mf = ⟨Option.none, true, Option.none, some sp, s⟩ := by
  unfold MemFile.create_raw osImplCreate at h
  cases out with
  | err m => simp at h
  | okNoIdent =>
    simp only [Prod.mk.injEq, Except.ok.injEq] at h
    exact Or.inr h.1.symm
  | ok ident =>
    simp only [Option.getD_some, Prod.mk.injEq, Except.ok.injEq] at h
    exact Or.inl h.1.symm

/-- Every successful `MemFile::open_raw` returns a non-owner handle with no
link path and the caller-supplied identifier. -/
theorem open_raw_ok_shape (w : World) (sp : String) (mf : MemFile)
    (h : MemFile.open_raw w sp = .ok mf) :
    ∃ sz, mf = ⟨some ⟨sp, false⟩, false, Option.none, some sp, sz⟩ := by
  unfold MemFile.open_raw osImplOpen at h
  cases hl : Objects.lookup w.objects sp with
  | none => simp [hl] at h
  | some v =>
    obtain ⟨sz, lk⟩ := v
    simp only [hl, Except.ok.injEq] at h
    exact ⟨sz, h.symm⟩

/-! ## Claims -/

/-- Claim C1: when the backend create step succeeds (conforming outcome with a
fresh identifier) but persisting the identifier into the link file fails —
either a short write or a write error — `create` surfaces the corresponding
error, and the implicit drop of the created handle has rolled everything back
first: the final world equals the initial one, so no link file and no shared
object are left behind. -/
theorem c1_persist_failure_leaves_no_artifacts (w : World) (p : String)
    (k : LockType) (s : Nat) (ident : String) (n : Nat) (m : String)
    (hfresh : Fs.isFile w.fs p = false)
    (hident : Objects.live w.objects ident = false)
    (hshort : n ≠ (encodeString ident).length) :
    MemFile.create w p k s ⟨Option.none, .ok ident, .wrote n, true⟩ =
      (.err (.strError "Failed to write full contents info on disk"), w) ∧
    MemFile.create w p k s ⟨Option.none, .ok ident, .ioErr m, true⟩ =
      (.err (.strError "Failed to write info on disk"), w) := by
  constructor
  · unfold MemFile.create osImplCreate MemFile.drop
    simp [hfresh, hshort, Fs.isFile_setFile_self, Fs.removeFile_setFile,
      Fs.removeFile_of_isFile_false w.fs p hfresh,
      Objects.removeObj_cons_self,
      Objects.removeObj_of_live_false w.objects ident hident]
  · unfold MemFile.create osImplCreate MemFile.drop
    simp [hfresh, Fs.isFile_setFile_self, Fs.removeFile_setFile,
      Fs.removeFile_of_isFile_false w.fs p hfresh,
      Objects.removeObj_cons_self,
      Objects.removeObj_of_live_false w.objects ident hident]

theorem c1_witness :
    MemFile.create ⟨[], []⟩ "shared_mem.link" LockType.mutex 4
        ⟨Option.none, .ok "id7", .wrote 1, true⟩ =
      (.err (.strError "Failed to write full contents info on disk"), ⟨[], []⟩) ∧
    MemFile.create ⟨[], []⟩ "shared_mem.link" LockType.mutex 4
        ⟨Option.none, .ok "id7", .ioErr "boom", true⟩ =
      (.err (.strError "Failed to write info on disk"), ⟨[], []⟩) :=
  c1_persist_failure_leaves_no_artifacts ⟨[], []⟩ "shared_mem.link"
    LockType.mutex 4 "id7" 1 "boom" (by decide) (by decide) (by decide)

/-- Claim C2: if `p` already names an existing file, `create(p, k, s)` fails
with the already-exists error and returns the world unchanged — whatever the
environment would have answered for the backend and the writes — so the
backend is never invoked, no OS-level object is created, and the pre-existing
file's bytes are untouched. -/
theorem c2_create_on_existing_path_fails_untouched (w : World) (p : String)
    (k : LockType) (s : Nat) (env : CreateEnv)
    (h : Fs.isFile w.fs p = true) :
    MemFile.create w p k s env =
      (.err (.strError "Cannot create MemFile because file already exists"), w) := by
  unfold MemFile.create
  simp [h]

theorem c2_witness :
    MemFile.create ⟨[("shared_mem.link", [104, 105])], []⟩ "shared_mem.link"
        LockType.rwlock 16 ⟨Option.none, .ok "fresh", .wrote 5, true⟩ =
      (.err (.strError "Cannot create MemFile because file already exists"),
       ⟨[("shared_mem.link", [104, 105])], []⟩) :=
  c2_create_on_existing_path_fails_untouched ⟨[("shared_mem.link", [104, 105])], []⟩
    "shared_mem.link" LockType.rwlock 16 ⟨Option.none, .ok "fresh", .wrote 5, true⟩
    (by decide)

/-- Claim C10: on a fresh path, if creating the link file itself fails with an
I/O error, that error is returned with the world unchanged — whatever the
environment would have answered for the backend — so the backend is never
invoked and no OS shared-memory object is created. -/
theorem c10_link_create_io_error_before_backend (w : World) (p : String)
    (k : LockType) (s : Nat) (env : CreateEnv) (m : String)
    (hfresh : Fs.isFile w.fs p = false)
    (herr : env.fsCreateErr = some m) :
    MemFile.create w p k s env = (.err (.ioError m), w) := by
  unfold MemFile.create
  simp [hfresh, herr]

theorem c10_witness :
    MemFile.create ⟨[], []⟩ "shared_mem.link" LockType.mutex 4
        ⟨some "permission denied", .ok "id7", .wrote 3, true⟩ =
      (.err (.ioError "permission denied"), ⟨[], []⟩) :=
  c10_link_create_io_error_before_backend ⟨[], []⟩ "shared_mem.link"
    LockType.mutex 4 ⟨some "permission denied", .ok "id7", .wrote 3, true⟩
    "permission denied" (by decide) rfl

/-- Claim C3: on a fresh path, a successful `create(p, k, s)` (conforming
backend outcome, full write) followed by `open(p)` yields a handle whose size
equals `s` and whose OS identifier (`real_path`) equals the string the creator
persisted into the link file. -/
theorem c3_create_then_open_roundtrip (w : World) (p : String) (k : LockType)
    (s : Nat) (ident : String) (hfresh : Fs.isFile w.fs p = false)
    (_hs : 0 < s) :
    ∃ cf w', MemFile.create w p k s
        ⟨Option.none, .ok ident, .wrote (encodeString ident).length, true⟩ =
          (.ok cf, w') ∧
      cf.real_path = some ident ∧ cf.size = s ∧
      Fs.lookup w'.fs p = some (encodeString ident) ∧
      ∃ mf2, MemFile.openLink w' p Option.none = .ok mf2 ∧
        mf2.size = s ∧ mf2.real_path = some ident := by
  refine ⟨⟨some ⟨ident, true⟩, true, some p, some ident, s⟩,
    ⟨Fs.setFile (Fs.setFile w.fs p []) p (encodeString ident),
     (ident, s, k) :: w.objects⟩,
    create_ok_eq w p k s ident true hfresh, rfl, rfl,
    Fs.lookup_setFile_self _ _ _,
    ⟨some ⟨ident, false⟩, false, some p, some ident, s⟩, ?_, rfl, rfl⟩
  unfold MemFile.openLink osImplOpen
  simp [Fs.isFile_setFile_self, Fs.lookup_setFile_self,
    stringFromUtf8_encodeString, Objects.lookup_cons_self]

theorem c3_witness :
    ∃ cf w', MemFile.create ⟨[], []⟩ "shared_mem.link" LockType.mutex 4
        ⟨Option.none, .ok "id7", .wrote (encodeString "id7").length, true⟩ =
          (.ok cf, w') ∧
      cf.real_path = some "id7" ∧ cf.size = 4 ∧
      Fs.lookup w'.fs "shared_mem.link" = some (encodeString "id7") ∧
      ∃ mf2, MemFile.openLink w' "shared_mem.link" Option.none = .ok mf2 ∧
        mf2.size = 4 ∧ mf2.real_path = some "id7" :=
  c3_create_then_open_roundtrip ⟨[], []⟩ "shared_mem.link" LockType.mutex 4
    "id7" (by decide) (by decide)

/-- Claim C4: dropping an owner handle whose link path still names a regular
file removes the link file when the OS removal succeeds; the removal is
best-effort — its outcome never affects the rest of teardown (the backend
release computes identically whether removal succeeded or not, and drop
returns a world, with no error channel) — and dropping a non-owner handle
never touches the filesystem. -/
theorem c4_drop_removes_link_iff_owner :
    (∀ (w : World) (mf : MemFile) (p : String), mf.owner = true →
        mf.link_path = some p → Fs.isFile w.fs p = true →
        Fs.isFile (MemFile.drop w mf true).fs p = false) ∧
    (∀ (w : World) (mf : MemFile) (r : Bool),
        (MemFile.drop w mf r).objects = (MemFile.drop w mf true).objects) ∧
    (∀ (w : World) (mf : MemFile) (r : Bool), mf.owner = false →
        (MemFile.drop w mf r).fs = w.fs) := by
  refine ⟨?_, ?_, ?_⟩
  · intro w mf p ho hl hf
    unfold MemFile.drop
    simp only [Fs.isFile] at hf
    simp [ho, hl, hf, Fs.isFile, Fs.lookup_removeFile_self]
  · intro w mf r
    rfl
  · intro w mf r ho
    unfold MemFile.drop
    simp [ho]

theorem c4_witness :
    Fs.isFile (MemFile.drop ⟨[("shared_mem.link", [105])], [("id7", 4, LockType.mutex)]⟩
        ⟨some ⟨"id7", true⟩, true, some "shared_mem.link", some "id7", 4⟩ true).fs
      "shared_mem.link" = false ∧
    (MemFile.drop ⟨[("a", [])], []⟩
        ⟨Option.none, true, some "a", Option.none, 0⟩ false).objects =
      (MemFile.drop ⟨[("a", [])], []⟩
        ⟨Option.none, true, some "a", Option.none, 0⟩ true).objects ∧
    (MemFile.drop ⟨[("a", [])], []⟩
        ⟨Option.none, false, some "a", Option.none, 0⟩ false).fs = [("a", [])] :=
  ⟨c4_drop_removes_link_iff_owner.1 ⟨[("shared_mem.link", [105])], [("id7", 4, LockType.mutex)]⟩
      ⟨some ⟨"id7", true⟩, true, some "shared_mem.link", some "id7", 4⟩
      "shared_mem.link" rfl rfl (by decide),
   c4_drop_removes_link_iff_owner.2.1 ⟨[("a", [])], []⟩
      ⟨Option.none, true, some "a", Option.none, 0⟩ false,
   c4_drop_removes_link_iff_owner.2.2 ⟨[("a", [])], []⟩
      ⟨Option.none, false, some "a", Option.none, 0⟩ false rfl⟩

/-- Claim C5 counterexample: a link file whose contents are empty.  `open`
does not fail with a decode error: `String::from_utf8(vec![])` succeeds with
the empty string, so `open` proceeds past decoding to the backend attach and
fails there with a backend error — not a decode error. -/
theorem c5_counterexample_empty_contents :
    MemFile.openLink ⟨[("shared_mem.link", [])], []⟩ "shared_mem.link" Option.none =
      .error (.backendError "mapping not found") ∧
    MemFile.openLink ⟨[("shared_mem.link", [])], []⟩ "shared_mem.link" Option.none ≠
      .error .utf8Error := by
  constructor
  · rfl
  · decide

/-- Claim C5 amended: for an existing link file, read without I/O failure,
`open` fails with the UTF-8 decode error — a value distinct from every
I/O-failure value — exactly when the contents are not valid UTF-8.  Contents
that are valid UTF-8, including empty contents and truncations that remain
valid UTF-8, decode successfully, and `open` proceeds to the backend attach
with the decoded identifier. -/
theorem c5_amended_decode_error_iff_invalid_utf8 (w : World) (p : String)
    (h : Fs.isFile w.fs p = true) :
    (MemFile.openLink w p Option.none = .error .utf8Error ↔
      stringFromUtf8 ((Fs.lookup w.fs p).getD []) = Option.none) ∧
    (∀ m, (MemFileError.utf8Error : MemFileError) ≠ .ioError m) ∧
    (∀ s, stringFromUtf8 ((Fs.lookup w.fs p).getD []) = some s →
      MemFile.openLink w p Option.none =
        osImplOpen w.objects ⟨Option.none, false, some p, some s, 0⟩) := by
  refine ⟨⟨?_, ?_⟩, ?_, ?_⟩
  · intro hres
    cases hs : stringFromUtf8 ((Fs.lookup w.fs p).getD []) with
    | none => rfl
    | some s =>
      unfold MemFile.openLink at hres
      simp only [h, Bool.not_true, Bool.false_eq_true, if_false, hs] at hres
      exact absurd hres (osImplOpen_ne_utf8Error w.objects _)
  · intro hs
    unfold MemFile.openLink
    simp [h, hs]
  · intro m
    simp
  · intro s hs
    unfold MemFile.openLink
    simp [h, hs]

theorem c5_witness :
    (MemFile.openLink ⟨[("p", [255])], []⟩ "p" Option.none = .error .utf8Error ↔
      stringFromUtf8 ((Fs.lookup [("p", [255])] "p").getD []) = Option.none) ∧
    (∀ m, (MemFileError.utf8Error : MemFileError) ≠ .ioError m) ∧
    (∀ s, stringFromUtf8 ((Fs.lookup [("p", [255])] "p").getD []) = some s →
      MemFile.openLink ⟨[("p", [255])], []⟩ "p" Option.none =
        osImplOpen [] ⟨Option.none, false, some "p", some s, 0⟩) :=
  c5_amended_decode_error_iff_invalid_utf8 ⟨[("p", [255])], []⟩ "p" (by decide)

/-- Claim C6: when `create` persists the identifier, a short write (fewer
bytes written than the identifier's length) produces one error value and a
failed write another, and the two values are distinct — the caller can tell
the conditions apart. -/
theorem c6_short_write_vs_failed_write (w : World) (p : String) (k : LockType)
    (s : Nat) (ident : String) (n : Nat) (m : String) (rOk : Bool)
    (hfresh : Fs.isFile w.fs p = false)
    (hshort : n ≠ (encodeString ident).length) :
    (MemFile.create w p k s ⟨Option.none, .ok ident, .wrote n, rOk⟩).1 =
      .err (.strError "Failed to write full contents info on disk") ∧
    (MemFile.create w p k s ⟨Option.none, .ok ident, .ioErr m, rOk⟩).1 =
      .err (.strError "Failed to write info on disk") ∧
    MemFileError.strError "Failed to write full contents info on disk" ≠
      MemFileError.strError "Failed to write info on disk" := by
  refine ⟨?_, ?_, by decide⟩
  · unfold MemFile.create osImplCreate
    simp [hfresh, hshort]
  · unfold MemFile.create osImplCreate
    simp [hfresh]

theorem c6_witness :
    (MemFile.create ⟨[], []⟩ "shared_mem.link" LockType.rwlock 8
        ⟨Option.none, .ok "id8", .wrote 2, false⟩).1 =
      .err (.strError "Failed to write full contents info on disk") ∧
    (MemFile.create ⟨[], []⟩ "shared_mem.link" LockType.rwlock 8
        ⟨Option.none, .ok "id8", .ioErr "disk gone", false⟩).1 =
      .err (.strError "Failed to write info on disk") ∧
    MemFileError.strError "Failed to write full contents info on disk" ≠
      MemFileError.strError "Failed to write info on disk" :=
  c6_short_write_vs_failed_write ⟨[], []⟩ "shared_mem.link" LockType.rwlock 8
    "id8" 2 "disk gone" false (by decide) (by decide)

/-- Claim C7: a handle's `link_path` is `None` exactly when it was produced in
raw mode: `create` and `open` always return `Some` of the link path they were
given, `create_raw` and `open_raw` always return `None`. -/
theorem c7_link_path_none_iff_raw :
    (∀ (w : World) (p : String) (k : LockType) (s : Nat) (env : CreateEnv)
        (mf : MemFile) (w' : World),
        MemFile.create w p k s env = (.ok mf, w') → mf.link_path = some p) ∧
    (∀ (w : World) (p : String) (readErr : Option String) (mf : MemFile),
        MemFile.openLink w p readErr = .ok mf → mf.link_path = some p) ∧
    (∀ (w : World) (sp : String) (s : Nat) (out : BackendCreateOutcome)
        (mf : MemFile) (w' : World),
        MemFile.create_raw w sp s out = (.ok mf, w') →
          mf.link_path = Option.none) ∧
    (∀ (w : World) (sp : String) (mf : MemFile),
        MemFile.open_raw w sp = .ok mf → mf.link_path = Option.none) := by
  refine ⟨?_, ?_, ?_, ?_⟩
  · intro w p k s env mf w' h
    obtain ⟨ident, rfl⟩ := create_ok_shape w p k s env mf w' h
    rfl
  · intro w p readErr mf h
    obtain ⟨ident, sz, rfl⟩ := openLink_ok_shape w p readErr mf h
    rfl
  · intro w sp s out mf w' h
    rcases create_raw_ok_shape w sp s out mf w' h with rfl | rfl <;> rfl
  · intro w sp mf h
    obtain ⟨sz, rfl⟩ := open_raw_ok_shape w sp mf h
    rfl

theorem c7_witness :
    (⟨some ⟨"id7", true⟩, true, some "a.link", some "id7", 4⟩ : MemFile).link_path =
      some "a.link" ∧
    (⟨some ⟨"id7", false⟩, false, some "a.link", some "id7", 4⟩ : MemFile).link_path =
      some "a.link" ∧
    (⟨some ⟨"raw", true⟩, true, Option.none, some "raw", 8⟩ : MemFile).link_path =
      Option.none ∧
    (⟨some ⟨"raw", false⟩, false, Option.none, some "raw", 8⟩ : MemFile).link_path =
      Option.none :=
  ⟨c7_link_path_none_iff_raw.1 ⟨[], []⟩ "a.link" LockType.mutex 4
      ⟨Option.none, .ok "id7", .wrote 3, true⟩
      ⟨some ⟨"id7", true⟩, true, some "a.link", some "id7", 4⟩
      ⟨[("a.link", [105, 100, 55])], [("id7", 4, LockType.mutex)]⟩ (by decide),
   c7_link_path_none_iff_raw.2.1
      ⟨[("a.link", [105, 100, 55])], [("id7", 4, LockType.mutex)]⟩ "a.link"
      Option.none ⟨some ⟨"id7", false⟩, false, some "a.link", some "id7", 4⟩
      (by decide),
   c7_link_path_none_iff_raw.2.2.1 ⟨[], []⟩ "raw" 8 (.ok "x")
      ⟨some ⟨"raw", true⟩, true, Option.none, some "raw", 8⟩
      ⟨[], [("raw", 8, LockType.none)]⟩ (by decide),
   c7_link_path_none_iff_raw.2.2.2 ⟨[], [("raw", 8, LockType.none)]⟩ "raw"
      ⟨some ⟨"raw", false⟩, false, Option.none, some "raw", 8⟩ (by decide)⟩

/-- Claim C8: `create_raw` performs no filesystem operation (the filesystem
component of the world is unchanged for every backend outcome), always invokes
the backend with `LockType::None` (a conforming outcome registers the new
object under the caller's identifier with lock kind `None`), and a successful
raw creation returns a handle with `owner = true` and `link_path = None`. -/
theorem c8_create_raw_no_fs_lock_none :
    (∀ (w : World) (sp : String) (s : Nat) (out : BackendCreateOutcome),
        (MemFile.create_raw w sp s out).2.fs = w.fs) ∧
    (∀ (w : World) (sp : String) (s : Nat) (ident : String),
        MemFile.create_raw w sp s (.ok ident) =
          (.ok ⟨some ⟨sp, true⟩, true, Option.none, some sp, s⟩,
           ⟨w.fs, (sp, s, LockType.none) :: w.objects⟩)) ∧
    (∀ (w : World) (sp : String) (s : Nat) (out : BackendCreateOutcome)
        (mf : MemFile) (w' : World),
        MemFile.create_raw w sp s out = (.ok mf, w') →
          mf.owner = true ∧ mf.link_path = Option.none) := by
  refine ⟨?_, ?_, ?_⟩
  · intro w sp s out
    cases out <;> rfl
  · intro w sp s ident
    unfold MemFile.create_raw osImplCreate
    simp
  · intro w sp s out mf w' h
    rcases create_raw_ok_shape w sp s out mf w' h with rfl | rfl <;>
      exact ⟨rfl, rfl⟩

theorem c8_witness :
    (MemFile.create_raw ⟨[("x", [0])], []⟩ "raw" 8 (.err "quota")).2.fs =
      [("x", [0])] ∧
    MemFile.create_raw ⟨[("x", [0])], []⟩ "raw" 8 (.ok "hint") =
      (.ok ⟨some ⟨"raw", true⟩, true, Option.none, some "raw", 8⟩,
       ⟨[("x", [0])], [("raw", 8, LockType.none)]⟩) ∧
    ((⟨some ⟨"raw", true⟩, true, Option.none, some "raw", 8⟩ : MemFile).owner = true ∧
      (⟨some ⟨"raw", true⟩, true, Option.none, some "raw", 8⟩ : MemFile).link_path =
        Option.none) :=
  ⟨c8_create_raw_no_fs_lock_none.1 ⟨[("x", [0])], []⟩ "raw" 8 (.err "quota"),
   c8_create_raw_no_fs_lock_none.2.1 ⟨[("x", [0])], []⟩ "raw" 8 "hint",
   c8_create_raw_no_fs_lock_none.2.2 ⟨[("x", [0])], []⟩ "raw" 8 (.ok "hint")
      ⟨some ⟨"raw", true⟩, true, Option.none, some "raw", 8⟩
      ⟨[("x", [0])], [("raw", 8, LockType.none)]⟩ (by decide)⟩

/-- Claim C9: `create` panics (rather than returning an error) exactly when
the backend reported success without populating the identifier — the
internal-consistency violation; every other create-time failure (occupied
path, link-file I/O error, backend error, short or failed write) is returned
as a recoverable error. -/
theorem c9_panic_iff_backend_breaks_contract (w : World) (p : String)
    (k : LockType) (s : Nat) (env : CreateEnv) :
    (MemFile.create w p k s env).1.isPanicked = true ↔
      (Fs.isFile w.fs p = false ∧ env.fsCreateErr = Option.none ∧
        env.backend = .okNoIdent) := by
  obtain ⟨fse, be, wo, rOk⟩ := env
  cases hf : Fs.isFile w.fs p with
  | true =>
    unfold MemFile.create
    simp [hf, CreateResult.isPanicked]
  | false =>
    cases fse with
    | some m =>
      unfold MemFile.create
      simp [hf, CreateResult.isPanicked]
    | none =>
      cases be with
      | err m =>
        unfold MemFile.create osImplCreate
        simp [hf, CreateResult.isPanicked]
      | okNoIdent =>
        unfold MemFile.create osImplCreate
        simp [hf, CreateResult.isPanicked]
      | ok ident =>
        cases wo with
        | ioErr m =>
          unfold MemFile.create osImplCreate
          simp [hf, CreateResult.isPanicked]
        | wrote n =>
          unfold MemFile.create osImplCreate
          by_cases hn : n = (encodeString ident).length
          · simp [hf, hn, CreateResult.isPanicked]
          · simp [hf, hn, CreateResult.isPanicked]

theorem c9_witness :
    (MemFile.create ⟨[], []⟩ "shared_mem.link" LockType.mutex 4
        ⟨Option.none, .okNoIdent, .wrote 0, true⟩).1.isPanicked = true :=
  (c9_panic_iff_backend_breaks_contract ⟨[], []⟩ "shared_mem.link"
    LockType.mutex 4 ⟨Option.none, .okNoIdent, .wrote 0, true⟩).mpr
    ⟨rfl, rfl, rfl⟩

end SharedMemory
